import Mathlib

/-!
Verification of the Fast Peer Router (FPR) protocol engine.

This file gives a shallow embedding, in Lean, of the parts of the FPR C
sources relevant to the stated claims, and proves or refutes each claim
against that embedding.

Conventions of the embedding:
* machine integers are modelled as `Nat` (with explicit `% 2^w` where the C
  code can overflow), signed ids as `Int`;
* MAC addresses are byte lists (6 bytes in every concrete instance);
* fallible radio sends are modelled by explicit success flags
  (`sendOk : Bool` or `sendOk : Nat → Bool`, one flag per `esp_now_send`
  attempt);
* the per-peer FreeRTOS queue (`xQueueCreate(FPR_QUEUE_LENGTH, ...)`,
  `FPR_QUEUE_LENGTH = 10`) is a bounded FIFO, modelled as a `List` with
  capacity check `length < 10` on `xQueueSend`;
* global counters (`fpr_net.stats`) are a record threaded through the
  functions that mutate them.
-/

namespace FPR

/-- MAC addresses: 6 bytes in every concrete instance. -/
abbrev Mac := List Nat

/-- `FPR_BROADCAST_ADDRESS = {0xFF,0xFF,0xFF,0xFF,0xFF,0xFF}`. -/
def broadcastMac : Mac := List.replicate 6 255

/-- `FPR_KEY_SIZE = 16` (fpr_security.h). -/
def FPR_KEY_SIZE : Nat := 16

/-- `FPR_DEFAULT_MAX_HOPS = 10` (private_defs.h). -/
def FPR_DEFAULT_MAX_HOPS : Nat := 10

/-- `FPR_QUEUE_LENGTH = 10` (private_defs.h). -/
def FPR_QUEUE_LENGTH : Nat := 10

/-- `sizeof(((fpr_package_t*)0)->protocol)` = `FPR_PROTOCOL_DATA_INT_SIZE *
sizeof(int)` = 45*4 = 180 bytes (private_defs.h). -/
def PROTOCOL_SIZE : Nat := 180

/-- Modelled from the spec: `FPR_PACKET_ID_CONTROL` is used throughout the C
sources but its definition is not under src/; the spec fixes the sentinel
value `-1` for control frames. -/
def FPR_PACKET_ID_CONTROL : Int := -1

/-- `fpr_package_type_t` (private_defs.h). -/
inductive PackageType
  | single
  | start
  | continued
  | pkgEnd
  deriving DecidableEq, Repr

/-- `fpr_peer_state_t` (fpr_def.h). -/
inductive PeerState
  | discovered
  | pending
  | connected
  | rejected
  | blocked
  deriving DecidableEq, Repr

/-- `fpr_security_state_t` (fpr_security.h); `rank` mirrors the C enum value
so that the C comparisons `<` / `>=` on the enum can be embedded. -/
inductive SecState
  | none
  | pwkSent
  | pwkReceived
  | lwkSent
  | lwkReceived
  | established
  deriving DecidableEq, Repr

/-- Numeric value of the `fpr_security_state_t` enumerator. -/
def SecState.rank : SecState → Nat
  | .none => 0
  | .pwkSent => 1
  | .pwkReceived => 2
  | .lwkSent => 3
  | .lwkReceived => 4
  | .established => 5

/-- Queue mode of a peer's delivery queue (`FPR_QUEUE_MODE_NORMAL` /
`FPR_QUEUE_MODE_LATEST_ONLY`, used in helpers.c). -/
inductive QueueMode
  | normal
  | latestOnly
  deriving DecidableEq, Repr

/-- `esp_err_t` values the embedded functions return. -/
inductive EspErr
  | ok
  | invalidArg
  | invalidState
  | invalidSize
  | notFound
  | noMem
  | sendFail
  deriving DecidableEq, Repr

/-- `fpr_package_t` (private_defs.h, plus the `sequence_num`/`payload_size`
fields used by fpr.c and helpers.c).  `protocol` holds the bytes actually
written into the 180-byte payload area (the C buffer is zero-padded beyond
`protocol.length`). -/
structure Package where
  protocol : List Nat
  package_type : PackageType
  id : Int
  origin_mac : Mac
  dest_mac : Mac
  hop_count : Nat
  max_hops : Nat
  version : Nat
  sequence_num : Nat
  payload_size : Nat
  deriving DecidableEq, Repr

/-- The subset of `fpr_net.stats` the embedded code paths mutate. -/
structure Stats where
  packets_sent : Nat := 0
  packets_received : Nat := 0
  packets_forwarded : Nat := 0
  packets_dropped : Nat := 0
  send_failures : Nat := 0
  replay_attacks_blocked : Nat := 0
  deriving DecidableEq, Repr

-- ========== C10: fpr_network_stop_loop_task (fpr.c) ==========

/-- `fpr_network_stop_loop_task` (fpr.c).  The state is the value of
`fpr_net.loop_task` (`none` = `NULL`).  The C code tests
`if (fpr_net.loop_task == NULL)` and in THAT branch deletes the (null)
handle, clears it and returns `ESP_OK`; in the other branch it returns
`ESP_ERR_INVALID_STATE` and leaves the handle untouched. -/
def fpr_network_stop_loop_task : Option Nat → EspErr × Option Nat
  | Option.none => (EspErr.ok, Option.none)
  | some t => (EspErr.invalidState, some t)

/-- Iterated calls to `fpr_network_stop_loop_task`, keeping only the
`loop_task` component of the state. -/
def stopLoopIter : Nat → Option Nat → Option Nat
  | 0, s => s
  | n + 1, s => stopLoopIter n (fpr_network_stop_loop_task s).2

-- ========== C9: fpr_security_verify_pwk / _lwk (fpr_security.c) ==========

/-- `memcmp(a, b, n)`-style byte scan as the C library performs it: walk the
two buffers in lockstep and stop at the first mismatching byte.  Returns the
number of byte positions inspected and whether all compared bytes were
equal. -/
def memcmpRun : List Nat → List Nat → Nat × Bool
  | a :: as, b :: bs =>
      if a ≠ b then (1, false)
      else
        let r := memcmpRun as bs
        (r.1 + 1, r.2)
  | _, _ => (0, true)

/-- Number of byte positions a short-circuiting `memcmp` inspects. -/
def memcmpSteps (a b : List Nat) : Nat := (memcmpRun a b).1

/-- `memcmp(a, b, FPR_KEY_SIZE) == 0` for two key buffers. -/
def memcmpEq (a b : List Nat) : Bool := (memcmpRun a b).2

/-- `fpr_security_verify_pwk` (fpr_security.c): NULL checks, then
`memcmp(pwk_received, pwk_expected, FPR_KEY_SIZE) == 0`. -/
def fpr_security_verify_pwk : Option (List Nat) → Option (List Nat) → Bool
  | some received, some expected => memcmpEq received expected
  | _, _ => false

/-- `fpr_security_verify_lwk` (fpr_security.c): identical logic to
`fpr_security_verify_pwk`. -/
def fpr_security_verify_lwk : Option (List Nat) → Option (List Nat) → Bool
  | some received, some expected => memcmpEq received expected
  | _, _ => false

-- ===== Version dispatcher (fpr_lts.h, fpr_handle.c, fpr_legacy.c, fpr_new.c) =====

/-- `FPR_PROTOCOL_VERSION = CODE_VERSION(1,0,0)` packed as
`(major << 16) | (minor << 8) | patch` (version_control.h): 65536. -/
def FPR_PROTOCOL_VERSION : Nat := 65536

/-- `FPR_MIN_SUPPORTED_VERSION = CODE_VERSION(1,0,0)` (fpr_lts.h). -/
def FPR_MIN_SUPPORTED_VERSION : Nat := 65536

/-- `CODE_VERSION_MAJOR(v) = (v >> 16) & 0xFF` (version_control.h). -/
def versionMajor (v : Nat) : Nat := (v >>> 16) % 256

/-- `fpr_version_is_compatible` (fpr_lts.h):
`CODE_VERSION_AT_LEAST(remote_version, FPR_MIN_SUPPORTED_VERSION)`,
i.e. plain `>=` on the packed 32-bit value. -/
def fpr_version_is_compatible (v : Nat) : Bool :=
  decide (v ≥ FPR_MIN_SUPPORTED_VERSION)

/-- `fpr_version_is_current` (fpr_lts.h): same major version. -/
def fpr_version_is_current (v : Nat) : Bool :=
  versionMajor v == versionMajor FPR_PROTOCOL_VERSION

/-- `fpr_version_needs_legacy_handler` (fpr_lts.h): version 0, or packed
value below `CODE_VERSION(current_major, 0, 0)` = 65536. -/
def fpr_version_needs_legacy_handler (v : Nat) : Bool :=
  v == 0 || decide (v < 65536)

/-- `fpr_version_needs_newer_handler` (fpr_lts.h): strictly newer major. -/
def fpr_version_needs_newer_handler (v : Nat) : Bool :=
  decide (versionMajor v > versionMajor FPR_PROTOCOL_VERSION)

/-- `fpr_legacy_handle_protocol_version` (fpr_legacy.c): `return false;` —
the legacy handler declines every packet. -/
def fpr_legacy_handle_protocol_version (_v : Nat) : Bool := false

/-- `fpr_new_handle_protocol_version` (fpr_new.c): rejects future
versions. -/
def fpr_new_handle_protocol_version (_v : Nat) : Bool := false

/-- Result of the version dispatcher, instrumented with which sub-handlers
were invoked (so that the routing of a frame can be stated). -/
structure DispatchResult where
  accepted : Bool
  legacyInvoked : Bool
  newInvoked : Bool
  deriving DecidableEq, Repr

/-- `fpr_version_handle_version` (fpr_handle.c): compatibility gate first,
then current-version fast path, then the legacy and future handlers. -/
def fpr_version_handle_version (v : Nat) : DispatchResult :=
  if fpr_version_is_compatible v = false then
    ⟨false, false, false⟩
  else if fpr_version_is_current v then
    ⟨true, false, false⟩
  else
    let legInv := fpr_version_needs_legacy_handler v
    if legInv && fpr_legacy_handle_protocol_version v then
      ⟨true, legInv, false⟩
    else
      let newInv := fpr_version_needs_newer_handler v
      if newInv && fpr_new_handle_protocol_version v then
        ⟨true, legInv, newInv⟩
      else
        ⟨false, legInv, newInv⟩

-- ===== Extender mode (fpr_extender.c) =====

/-- `memcmp(mac, broadcast_addr, 6) == 0`. -/
def isBroadcastAddress (m : Mac) : Bool := m == broadcastMac

/-- `fpr_send_options_full_control_t` (fpr_extender.c). -/
structure SendOptionsFullControl where
  package_type : PackageType
  package_id : Int
  max_hops : Nat
  deriving DecidableEq, Repr

/-- The routing fields of a peer record that `_handle_extender_receive`
reads when looking up a route (`peer->hop_count`, `peer->next_hop_mac`). -/
structure RouteInfo where
  hop_count : Nat
  next_hop_mac : Mac
  deriving DecidableEq, Repr

/-- The frame built by `fpr_send_data_full_control` (fpr_extender.c).  The
function declares `fpr_package_t package = {0}` and then sets only
`package_type`, `id`, `protocol`, `origin_mac` (:= own MAC!), `dest_mac`
(:= radio destination), `hop_count := 0` and `max_hops`; in particular
`version`, `sequence_num` and `payload_size` remain zero. -/
def fpr_send_data_full_control (selfMac : Mac) (peerAddress : Option Mac)
    (data : List Nat) (options : SendOptionsFullControl) : Package :=
  { protocol := data
    package_type := options.package_type
    id := options.package_id
    origin_mac := selfMac
    dest_mac := peerAddress.getD broadcastMac
    hop_count := 0
    max_hops := if options.max_hops > 0 then options.max_hops else FPR_DEFAULT_MAX_HOPS
    version := 0
    sequence_num := 0
    payload_size := 0 }

/-- `_should_forward_packet` (fpr_extender.c). -/
def shouldForwardPacket (selfMac : Mac) (p : Package) : Bool :=
  if p.origin_mac == selfMac then false
  else if p.hop_count ≥ p.max_hops then false
  else isBroadcastAddress p.dest_mac || !(p.dest_mac == selfMac)

/-- Context of one `_handle_extender_receive` invocation: own MAC,
`fpr_net.routing_enabled`, the peer-map view used for the route lookup to
`dest_mac` (read after the sender's record was updated; route learning
itself does not affect the emitted frame and is abstracted into this view),
and the success of the one `esp_now_send` inside
`fpr_send_data_full_control`. -/
structure ExtenderCtx where
  selfMac : Mac
  routingEnabled : Bool
  routeLookup : Mac → Option RouteInfo
  sendOk : Bool

/-- Statistics and emitted frame of one extender receive. -/
structure ExtenderOut where
  stats : Stats
  emitted : Option Package
  deriving Repr

/-- The forwarding portion of `_handle_extender_receive` (fpr_extender.c):
paused check, frame-size check (well-formed frames assumed), version
dispatch, then — when routing is enabled and `_should_forward_packet`
holds — increment of the local copy's `hop_count` (8-bit), next-hop
resolution (broadcast, or the learned route to `dest_mac` when its
`hop_count > 0`), and re-emission through `fpr_send_data_full_control`.
Local delivery to the own queue does not affect the emitted frame or the
counters modelled here.  On send failure both `fpr_send_data_full_control`
and the caller increment `send_failures` (hence +2). -/
def extenderNextHop (ctx : ExtenderCtx) (pkg : Package) : Option Mac :=
  if isBroadcastAddress pkg.dest_mac then some broadcastMac
  else
    match ctx.routeLookup pkg.dest_mac with
    | some r => if r.hop_count > 0 then some r.next_hop_mac else none
    | none => none

def handleExtenderReceive (ctx : ExtenderCtx) (stats : Stats) (paused : Bool)
    (pkg : Package) : ExtenderOut :=
  if paused then
    ⟨{ stats with packets_dropped := stats.packets_dropped + 1 }, none⟩
  else
    let stats := { stats with packets_received := stats.packets_received + 1 }
    if (fpr_version_handle_version pkg.version).accepted = false then
      ⟨{ stats with packets_dropped := stats.packets_dropped + 1 }, none⟩
    else
      if ctx.routingEnabled && shouldForwardPacket ctx.selfMac pkg then
        let pkg' := { pkg with hop_count := (pkg.hop_count + 1) % 256 }
        match extenderNextHop ctx pkg with
        | some nh =>
            let out := fpr_send_data_full_control ctx.selfMac (some nh) pkg'.protocol
              ⟨pkg'.package_type, pkg'.id, pkg'.max_hops⟩
            if ctx.sendOk then
              ⟨{ stats with
                  packets_sent := stats.packets_sent + 1
                  packets_forwarded := stats.packets_forwarded + 1 }, some out⟩
            else
              ⟨{ stats with send_failures := stats.send_failures + 2 }, none⟩
        | none =>
            ⟨{ stats with packets_dropped := stats.packets_dropped + 1 }, none⟩
      else
        ⟨stats, none⟩

/-- One forwarding step between frames: some (unpaused) extender receives
`f` and re-emits `g`. -/
def ExtStep (f g : Package) : Prop :=
  ∃ (ctx : ExtenderCtx) (stats : Stats),
    (handleExtenderReceive ctx stats false f).emitted = some g

-- Concrete data for the extender claims.

/-- A sample extender MAC. -/
def macX : Mac := [9, 9, 9, 9, 9, 9]

/-- A sample origin MAC. -/
def macA : Mac := [1, 1, 1, 1, 1, 1]

/-- A broadcast data frame from `macA` as an extender would receive it:
`hop_count = 3`, `max_hops = 10`, current protocol version. -/
def recvFrame : Package :=
  { protocol := [42]
    package_type := .single
    id := 0
    origin_mac := macA
    dest_mac := broadcastMac
    hop_count := 3
    max_hops := 10
    version := FPR_PROTOCOL_VERSION
    sequence_num := 7
    payload_size := 1 }

/-- Extender context with routing enabled and a successful send. -/
def ctxX : ExtenderCtx :=
  { selfMac := macX
    routingEnabled := true
    routeLookup := fun _ => none
    sendOk := true }

/-- The frame `handleExtenderReceive ctxX` re-emits for `recvFrame`. -/
def fwdFrame : Package :=
  fpr_send_data_full_control macX (some broadcastMac) recvFrame.protocol
    ⟨recvFrame.package_type, recvFrame.id, recvFrame.max_hops⟩

/-- All-zero 16-byte key. -/
def keyZero : List Nat := List.replicate 16 0

/-- Key differing from `keyZero` in byte 0. -/
def keyDiffFirst : List Nat := 1 :: List.replicate 15 0

/-- Key differing from `keyZero` only in byte 15 (the last byte). -/
def keyDiffLast : List Nat := List.replicate 15 0 ++ [1]

end FPR

-- ===================== Theorems =====================

namespace FPR

/-- Helper for C9: `memcmpRun` decides list equality on equal-length
buffers. -/
theorem memcmpEq_iff_eq (a b : List Nat) (h : a.length = b.length) :
    memcmpEq a b = true ↔ a = b := by
  induction a generalizing b with
  | nil => cases b with
    | nil => simp [memcmpEq, memcmpRun]
    | cons y ys => simp at h
  | cons x xs ih =>
    cases b with
    | nil => simp at h
    | cons y ys =>
      simp only [List.length_cons, Nat.succ.injEq] at h
      by_cases hxy : x = y
      · subst hxy
        simp only [memcmpEq, memcmpRun, ne_eq, not_true_eq_false, if_false]
        constructor
        · intro hr
          have := (ih ys h).mp hr
          simp [this]
        · intro hr
          have : xs = ys := by simpa using hr
          exact (ih ys h).mpr this
      · simp [memcmpEq, memcmpRun, hxy]

-- ===== Reassembly, replay filter and delivery queue (helpers.c) =====

/-- The fields of `fpr_store_hash_t` that `_store_data_from_peer_helper`
and `_store_data_with_mode` read or write (radio-layer metadata —
`last_seen`, `rssi` — is out of scope of the protocol engine and omitted). -/
structure PeerRec where
  state : PeerState
  last_seq_num : Nat
  receiving_fragmented : Bool
  fragment_seq_num : Nat
  queued_packets : Nat
  queue : List Package
  queue_mode : QueueMode
  packets_received : Nat
  deriving DecidableEq, Repr

/-- `_store_data_with_mode` (helpers.c).  Queue-mode bookkeeping only: the
function returns `void`, so it communicates nothing back to its caller.
The LatestOnly drain (`xQueueReceive` until empty) is a full drain of the
queue; the Start-branch drain pops frames while their `sequence_num`
matches the in-progress fragment sequence and pushes the first
non-matching frame back to the front. -/
def storeDataWithMode (store : PeerRec) (stats : Stats) (data : Package) :
    PeerRec × Stats :=
  let is_single_packet := data.package_type = PackageType.single
  let is_fragment_start := data.package_type = PackageType.start
  let is_fragment_middle := data.package_type = PackageType.continued
  let is_fragment_end := data.package_type = PackageType.pkgEnd
  let is_fragmented := is_fragment_start ∨ is_fragment_middle ∨ is_fragment_end
  let is_control_packet := data.id = FPR_PACKET_ID_CONTROL
  if store.queue_mode = QueueMode.latestOnly ∧ ¬ is_control_packet then
    if is_fragmented then
      ({ store with receiving_fragmented := false, fragment_seq_num := 0 },
       { stats with packets_dropped := stats.packets_dropped + 1 })
    else if is_single_packet ∧ store.queued_packets > 0 then
      ({ store with queue := [], queued_packets := 0 },
       { stats with packets_dropped := stats.packets_dropped + store.queue.length })
    else
      (store, stats)
  else if ¬ is_control_packet then
    if is_fragment_start then
      if store.receiving_fragmented then
        ({ store with
            queue := store.queue.dropWhile
              (fun p => p.sequence_num == store.fragment_seq_num),
            receiving_fragmented := true,
            fragment_seq_num := data.sequence_num },
         { stats with packets_dropped := stats.packets_dropped +
            (store.queue.takeWhile
              (fun p => p.sequence_num == store.fragment_seq_num)).length })
      else
        ({ store with
            receiving_fragmented := true,
            fragment_seq_num := data.sequence_num }, stats)
    else if is_fragment_middle ∨ is_fragment_end then
      if ¬ store.receiving_fragmented ∨ data.sequence_num ≠ store.fragment_seq_num then
        (store, { stats with packets_dropped := stats.packets_dropped + 1 })
      else if is_fragment_end then
        ({ store with receiving_fragmented := false, fragment_seq_num := 0 }, stats)
      else
        (store, stats)
    else
      (store, stats)
  else
    (store, stats)

/-- Result of `_store_data_from_peer_helper`: updated peer record, updated
counters, and whether the frame passed the replay filter of a connected
peer (false = dropped by the replay check, or peer not connected). -/
structure StoreOut where
  store : PeerRec
  stats : Stats
  accepted : Bool
  deriving DecidableEq, Repr

/-- `_store_data_from_peer_helper` (helpers.c) for a frame from the peer
`store`: `stats.packets_received` is bumped unconditionally; for a
connected peer the replay filter runs (`seq != 0 && seq < last_seq_num`
drops with `replay_attacks_blocked++`), `last_seq_num` is raised to newer
sequence numbers, queue-mode bookkeeping runs for non-control frames, the
application callback fires (no protocol-state effect), and then the frame
is unconditionally offered to the bounded delivery queue
(`xQueueSend`, capacity `FPR_QUEUE_LENGTH`); on a full queue it is dropped
and counted. -/
def storeDataFromPeerHelper (store : PeerRec) (stats : Stats) (data : Package) :
    StoreOut :=
  let stats := { stats with packets_received := stats.packets_received + 1 }
  if store.state = PeerState.connected then
    if data.sequence_num ≠ 0 ∧ data.sequence_num < store.last_seq_num then
      ⟨store,
       { stats with replay_attacks_blocked := stats.replay_attacks_blocked + 1 },
       false⟩
    else
      let store := if data.sequence_num > store.last_seq_num then
          { store with last_seq_num := data.sequence_num }
        else store
      let store := { store with packets_received := store.packets_received + 1 }
      let is_control_packet := data.id = FPR_PACKET_ID_CONTROL
      let is_complete_packet := data.package_type = PackageType.single ∨
        data.package_type = PackageType.pkgEnd
      let p :=
        if ¬ is_control_packet then storeDataWithMode store stats data
        else (store, stats)
      let store := p.1
      let stats := p.2
      if store.queue.length < FPR_QUEUE_LENGTH then
        ⟨{ store with
            queue := store.queue ++ [data]
            queued_packets := if is_complete_packet then store.queued_packets + 1
              else store.queued_packets }, stats, true⟩
      else
        ⟨store, { stats with packets_dropped := stats.packets_dropped + 1 }, true⟩
  else
    ⟨store, stats, false⟩

/-- Sequence numbers of the frames of a trace that pass the replay filter,
in arrival order. -/
def acceptedSeqs (store : PeerRec) (stats : Stats) : List Package → List Nat
  | [] => []
  | p :: ps =>
      let r := storeDataFromPeerHelper store stats p
      if r.accepted then p.sequence_num :: acceptedSeqs r.store r.stats ps
      else acceptedSeqs r.store r.stats ps

/-- Nonzero sequence numbers of the accepted frames of a trace, in arrival
order. -/
def acceptedNonzeroSeqs (store : PeerRec) (stats : Stats) :
    List Package → List Nat
  | [] => []
  | p :: ps =>
      let r := storeDataFromPeerHelper store stats p
      if r.accepted ∧ p.sequence_num ≠ 0 then
        p.sequence_num :: acceptedNonzeroSeqs r.store r.stats ps
      else acceptedNonzeroSeqs r.store r.stats ps

/-- A freshly connected peer record with an empty queue, Normal mode. -/
def connStore : PeerRec :=
  { state := .connected
    last_seq_num := 0
    receiving_fragmented := false
    fragment_seq_num := 0
    queued_packets := 0
    queue := []
    queue_mode := .normal
    packets_received := 0 }

/-- `connStore` switched to LatestOnly queue mode. -/
def latestStore : PeerRec := { connStore with queue_mode := .latestOnly }

/-- A one-byte application data frame with the given sequence number and
package type. -/
def pkgSeq (n : Nat) (t : PackageType) : Package :=
  { protocol := [1]
    package_type := t
    id := 0
    origin_mac := macA
    dest_mac := macX
    hop_count := 0
    max_hops := 10
    version := FPR_PROTOCOL_VERSION
    sequence_num := n
    payload_size := 1 }

/-- `connStore` with a recorded `last_seq_num` of 5. -/
def replayStore : PeerRec := { connStore with last_seq_num := 5 }

-- ===== Security handshake (fpr_security_handshake.c) =====

/-- `fpr_connect_t` (private_defs.h): the ConnectInfo payload of control
frames; the fields the handshake logic reads. -/
structure ConnectInfo where
  name : String
  pwk : List Nat
  lwk : List Nat
  has_pwk : Bool
  has_lwk : Bool
  deriving DecidableEq, Repr

/-- The peer-record fields the security handshake and the client discovery
path read or write (`FPR_STORE_HASH_TYPE` with its session fields). -/
structure HSPeer where
  name : String
  sec_state : SecState
  is_connected : Bool
  state : PeerState
  pwk : List Nat
  pwk_valid : Bool
  lwk : List Nat
  lwk_valid : Bool
  last_seq_num : Nat
  receiving_fragmented : Bool
  fragment_seq_num : Nat
  queued_packets : Nat
  queue : List Package
  deriving DecidableEq, Repr

/-- `fpr_sec_host_verify_and_ack` (fpr_security_handshake.c): verify the
client's step-3 PWK against the host PWK, store the client's LWK, send the
PWK+LWK acknowledgment (`sendOk` = result of the underlying send), and on
success mark Connected/Established, reset `last_seq_num`, clear the
fragment flag, and drain the queue (`xQueueReset`, `queued_packets = 0`). -/
def fpr_sec_host_verify_and_ack (peer : HSPeer) (info : ConnectInfo)
    (host_pwk : List Nat) (sendOk : Bool) : EspErr × HSPeer :=
  if fpr_security_verify_pwk (some info.pwk) (some host_pwk) = false then
    (EspErr.invalidArg, peer)
  else
    let peer := { peer with lwk := info.lwk, lwk_valid := true }
    if sendOk then
      (EspErr.ok,
       { peer with
          is_connected := true,
          state := PeerState.connected,
          sec_state := SecState.established,
          last_seq_num := 0,
          receiving_fragmented := false,
          fragment_seq_num := 0,
          queue := [],
          queued_packets := 0 })
    else
      (EspErr.sendFail, peer)

/-- `fpr_sec_client_handle_pwk` (fpr_security_handshake.c): store the
host's PWK, generate the client LWK (nondeterministic random generation is
modelled by the `freshLwk` oracle argument), send PWK+LWK back; on send
success the state advances to LwkSent. -/
def fpr_sec_client_handle_pwk (peer : HSPeer) (info : ConnectInfo)
    (freshLwk : List Nat) (sendOk : Bool) : EspErr × HSPeer :=
  let peer := { peer with
    pwk := info.pwk,
    pwk_valid := true,
    sec_state := SecState.pwkReceived,
    lwk := freshLwk,
    lwk_valid := true }
  if sendOk then (EspErr.ok, { peer with sec_state := SecState.lwkSent })
  else (EspErr.sendFail, peer)

/-- `fpr_sec_client_verify_ack` (fpr_security_handshake.c): verify the
echoed PWK and LWK against the stored keys; on success mark
Connected/Established, reset `last_seq_num`, clear the fragment flag, and
drain the queue (`xQueueReceive` loop, `queued_packets = 0`). -/
def fpr_sec_client_verify_ack (peer : HSPeer) (info : ConnectInfo) :
    EspErr × HSPeer :=
  if fpr_security_verify_pwk (some info.pwk) (some peer.pwk) = false then
    (EspErr.invalidArg, peer)
  else if fpr_security_verify_lwk (some info.lwk) (some peer.lwk) = false then
    (EspErr.invalidArg, peer)
  else
    (EspErr.ok,
     { peer with
        is_connected := true,
        state := PeerState.connected,
        sec_state := SecState.established,
        last_seq_num := 0,
        receiving_fragmented := false,
        fragment_seq_num := 0,
        queue := [],
        queued_packets := 0 })

-- ===== Client mode receive path (fpr_client.c) =====

/-- `fpr_connection_mode_t` (fpr_def.h). -/
inductive ConnectionMode
  | auto
  | manual
  deriving DecidableEq, Repr

/-- Client configuration: connection mode and the selection callback
(`none` = NULL; `some b` = a callback that returns `b`). -/
structure ClientConfig where
  connection_mode : ConnectionMode
  selection_cb : Option Bool
  deriving DecidableEq, Repr

/-- Client-side device state: the peer map (association list in insertion
order, keyed by MAC) and the client configuration. -/
structure ClientState where
  peers : List (Mac × HSPeer)
  config : ClientConfig
  deriving DecidableEq, Repr

/-- `_get_peer_from_map` over the association-list view of the peer map. -/
def lookupPeer (ps : List (Mac × HSPeer)) (m : Mac) : Option HSPeer :=
  (ps.find? (fun q => q.1 == m)).map (·.2)

/-- In-place update of the record stored under MAC `m`. -/
def updatePeer (ps : List (Mac × HSPeer)) (m : Mac) (p : HSPeer) :
    List (Mac × HSPeer) :=
  ps.map (fun q => if q.1 == m then (m, p) else q)

/-- `fpr_client_is_connected` (fpr_client.c): some peer has
`is_connected`. -/
def fpr_client_is_connected (st : ClientState) : Bool :=
  st.peers.any (fun q => q.2.is_connected)

/-- The peer record `_add_peer_internal` creates (calloc-zeroed session
state, Discovered, no keys). -/
def freshPeer (name : String) : HSPeer :=
  { name := name
    sec_state := SecState.none
    is_connected := false
    state := PeerState.discovered
    pwk := List.replicate 16 0
    pwk_valid := false
    lwk := List.replicate 16 0
    lwk_valid := false
    last_seq_num := 0
    receiving_fragmented := false
    fragment_seq_num := 0
    queued_packets := 0
    queue := [] }

/-- `_add_and_ping_host_from_client` (fpr_client.c).  An unknown host while
some other peer is `is_connected` is ignored entirely; otherwise the host
is added as Discovered.  The discovery ping / step-1 frame it sends and the
manual-mode selection callback affect no client-side peer state (declined
hosts are still added as Discovered), so every non-ignored branch performs
the same state change. -/
def addAndPingHostFromClient (st : ClientState) (src : Mac) (name : String) :
    ClientState :=
  let existing := lookupPeer st.peers src
  if existing = none ∧ fpr_client_is_connected st = true then st
  else if existing = none then
    { st with peers := st.peers ++ [(src, freshPeer name)] }
  else st

/-- The control-frame events of `_handle_client_discovery` (fpr_client.c)
relevant to connection state, assuming current-version frames and
successful sends: a host's device-info broadcast, a unicast step-2 frame
(`has_pwk && !has_lwk`, with the oracle for the client's generated LWK),
and a unicast step-4 acknowledgment (`has_pwk && has_lwk`). -/
inductive ClientEvent
  | hostBroadcast (src : Mac) (name : String)
  | hostPwk (src : Mac) (info : ConnectInfo) (freshLwk : List Nat)
  | hostAck (src : Mac) (info : ConnectInfo)
  deriving DecidableEq, Repr

/-- `_handle_client_discovery` (fpr_client.c), restricted to the control
frames of `ClientEvent`.  Broadcast from an unknown host goes through
`_add_and_ping_host_from_client`; broadcast from a known host resets the
peer and re-initiates connection when `sec_state == NONE` and the host is
not fully connected; step-2 handling resets on `sec_state >= LWK_SENT`
(host restart) and then runs `fpr_sec_client_handle_pwk` when
`sec_state < PWK_RECEIVED`; step-4 handling ignores duplicates when
Established and runs `fpr_sec_client_verify_ack` only in LwkSent. -/
def handleClientDiscovery (st : ClientState) (ev : ClientEvent) : ClientState :=
  match ev with
  | .hostBroadcast src name =>
      match lookupPeer st.peers src with
      | Option.none => addAndPingHostFromClient st src name
      | some known =>
          if known.is_connected = false ∨ known.sec_state ≠ SecState.established then
            if known.sec_state = SecState.none then
              let known := { known with
                sec_state := SecState.none,
                is_connected := false,
                state := PeerState.discovered,
                pwk_valid := false,
                lwk_valid := false }
              { st with peers := updatePeer st.peers src known }
            else st
          else st
  | .hostPwk src info freshLwk =>
      match lookupPeer st.peers src with
      | Option.none => st
      | some existing =>
          if info.has_pwk = true ∧ info.has_lwk = false then
            let existing :=
              if existing.sec_state.rank ≥ SecState.lwkSent.rank then
                { existing with
                  sec_state := SecState.none,
                  is_connected := false,
                  state := PeerState.discovered,
                  pwk_valid := false,
                  lwk_valid := false }
              else existing
            if existing.sec_state.rank < SecState.pwkReceived.rank then
              let p2 := (fpr_sec_client_handle_pwk existing info freshLwk true).2
              { st with peers := updatePeer st.peers src p2 }
            else st
          else st
  | .hostAck src info =>
      match lookupPeer st.peers src with
      | Option.none => st
      | some existing =>
          if info.has_pwk = true ∧ info.has_lwk = true then
            if existing.sec_state = SecState.established then st
            else if existing.sec_state = SecState.lwkSent then
              let p2 := (fpr_sec_client_verify_ack existing info).2
              { st with peers := updatePeer st.peers src p2 }
            else st
          else st

/-- Run the client receive handler over a trace of inbound control
frames. -/
def runClient (st : ClientState) : List ClientEvent → ClientState
  | [] => st
  | e :: es => runClient (handleClientDiscovery st e) es

/-- Number of peers in state Connected. -/
def countConnected (st : ClientState) : Nat :=
  (st.peers.filter (fun q => q.2.state == PeerState.connected)).length

-- Concrete data for the client / handshake claims.

/-- A second host MAC. -/
def macB : Mac := [2, 2, 2, 2, 2, 2]

/-- Client device in Auto connection mode, empty peer map. -/
def clientAuto : ClientState :=
  { peers := [], config := { connection_mode := ConnectionMode.auto, selection_cb := Option.none } }

/-- Host A's PWK. -/
def k1 : List Nat := List.replicate 16 1

/-- Client LWK generated for host A. -/
def l1 : List Nat := List.replicate 16 2

/-- Host B's PWK. -/
def k2 : List Nat := List.replicate 16 3

/-- Client LWK generated for host B. -/
def l2 : List Nat := List.replicate 16 4

/-- A step-2 ConnectInfo carrying only a PWK. -/
def infoPwk (k : List Nat) : ConnectInfo :=
  { name := "H", pwk := k, lwk := List.replicate 16 0,
    has_pwk := true, has_lwk := false }

/-- A step-4 ConnectInfo carrying PWK and LWK. -/
def infoAck (k l : List Nat) : ConnectInfo :=
  { name := "H", pwk := k, lwk := l, has_pwk := true, has_lwk := true }

/-- Interleaved handshakes with two distinct hosts A and B, starting from
a client connected to no one: both broadcasts arrive before either
handshake completes, then both handshakes run to completion. -/
def twoHostTrace : List ClientEvent :=
  [ ClientEvent.hostBroadcast macA "A",
    ClientEvent.hostBroadcast macB "B",
    ClientEvent.hostPwk macA (infoPwk k1) l1,
    ClientEvent.hostPwk macB (infoPwk k2) l2,
    ClientEvent.hostAck macA (infoAck k1 l1),
    ClientEvent.hostAck macB (infoAck k2 l2) ]

/-- A host-side peer record mid-handshake with residual session state. -/
def hostPeerPre : HSPeer :=
  { name := "client"
    sec_state := SecState.pwkSent
    is_connected := false
    state := PeerState.pending
    pwk := k1
    pwk_valid := true
    lwk := List.replicate 16 0
    lwk_valid := false
    last_seq_num := 42
    receiving_fragmented := true
    fragment_seq_num := 9
    queued_packets := 2
    queue := [pkgSeq 1 .single, pkgSeq 2 .single] }

/-- The client's step-3 frame for `hostPeerPre` (PWK `k1`, LWK `l1`). -/
def step3Info : ConnectInfo :=
  { name := "client", pwk := k1, lwk := l1, has_pwk := true, has_lwk := true }

/-- A client-side peer record in LwkSent with residual session state. -/
def clientPeerPre : HSPeer :=
  { hostPeerPre with
    name := "host"
    sec_state := SecState.lwkSent
    pwk := k1
    pwk_valid := true
    lwk := l1
    lwk_valid := true }

-- ===== Sending (fpr.c: fpr_send_with_options) =====

/-- `fpr_send_options_t` (fpr_def.h with the `max_hops` field used by
fpr.c). -/
structure SendOptions where
  package_id : Int
  max_hops : Nat
  deriving DecidableEq, Repr

/-- One data frame as the loop body of `fpr_send_with_options` builds it:
`{0}`-initialised, then type, id, `payload_size := chunk_size`,
`sequence_num := seq`, payload copy, `origin_mac := self`, destination
(broadcast when `peer_address == NULL`), `hop_count := 0`, `max_hops`
(default when 0), `version := FPR_NETWORK_VERSION`. -/
def mkDataPackage (selfMac : Mac) (dest : Option Mac) (opts : SendOptions)
    (seq : Nat) (ty : PackageType) (chunk : List Nat) : Package :=
  { protocol := chunk
    package_type := ty
    id := opts.package_id
    origin_mac := selfMac
    dest_mac := dest.getD broadcastMac
    hop_count := 0
    max_hops := if opts.max_hops > 0 then opts.max_hops else FPR_DEFAULT_MAX_HOPS
    version := FPR_PROTOCOL_VERSION
    sequence_num := seq
    payload_size := chunk.length }

/-- The `while (data_remaining > 0)` loop of `fpr_send_with_options`
(fpr.c).  `single` is the `size <= PROTOCOL_SIZE` flag computed once before
the loop; `first` is `is_first_packet`; `i` indexes the `esp_now_send`
attempts of this call (`sendOk i` = success of attempt `i`).  Returns
`(last_result, frames emitted by successful sends, packets_sent delta,
send_failures delta)`; on the first send failure the loop returns
immediately (`return last_result`), emitting nothing further.  The 2 ms
inter-fragment pause has no protocol-state effect. -/
def sendLoop (selfMac : Mac) (dest : Option Mac) (opts : SendOptions) (seq : Nat)
    (single : Bool) (sendOk : Nat → Bool) (first : Bool) (i : Nat)
    (bytes : List Nat) : EspErr × List Package × Nat × Nat :=
  if hb : bytes = [] then (EspErr.ok, [], 0, 0)
  else
    let chunk := bytes.take PROTOCOL_SIZE
    let rest := bytes.drop PROTOCOL_SIZE
    let ty := if single then PackageType.single
      else if first then PackageType.start
      else if bytes.length ≤ PROTOCOL_SIZE then PackageType.pkgEnd
      else PackageType.continued
    let pkg := mkDataPackage selfMac dest opts seq ty chunk
    if sendOk i then
      let r := sendLoop selfMac dest opts seq single sendOk false (i + 1) rest
      (r.1, pkg :: r.2.1, r.2.2.1 + 1, r.2.2.2)
    else
      (EspErr.sendFail, [], 0, 1)
termination_by bytes.length
decreasing_by
  simp only [List.length_drop, PROTOCOL_SIZE]
  have := List.length_pos.mpr hb
  omega

/-- Number of `esp_now_send` attempts a call makes for this payload when no
send fails: `⌈len / 180⌉`. -/
def numChunks (bytes : List Nat) : Nat :=
  if hb : bytes = [] then 0
  else numChunks (bytes.drop PROTOCOL_SIZE) + 1
termination_by bytes.length
decreasing_by
  simp only [List.length_drop, PROTOCOL_SIZE]
  have := List.length_pos.mpr hb
  omega

/-- The package types the loop assigns to the fragments, in emission
order. -/
def fragTypes (single : Bool) (first : Bool) (bytes : List Nat) :
    List PackageType :=
  if hb : bytes = [] then []
  else
    (if single then PackageType.single
     else if first then PackageType.start
     else if bytes.length ≤ PROTOCOL_SIZE then PackageType.pkgEnd
     else PackageType.continued) :: fragTypes single false (bytes.drop PROTOCOL_SIZE)
termination_by bytes.length
decreasing_by
  simp only [List.length_drop, PROTOCOL_SIZE]
  have := List.length_pos.mpr hb
  omega

/-- Result of one `fpr_send_with_options` call: returned error, emitted
frames, the value of the device-wide `tx_sequence_num` after the call, and
the counter deltas. -/
structure SendResult where
  err : EspErr
  emitted : List Package
  txSeq : Nat
  sent : Nat
  sendFailures : Nat
  deriving DecidableEq, Repr

/-- `fpr_send_with_options` (fpr.c): argument validation (`size > 0` ↦
`bytes ≠ []`), the paused gate, the single pre-increment of the 32-bit
`tx_sequence_num` (shared by all fragments of the call), then the send
loop. -/
def fpr_send_with_options (selfMac : Mac) (dest : Option Mac) (bytes : List Nat)
    (opts : SendOptions) (paused : Bool) (txSeq : Nat) (sendOk : Nat → Bool) :
    SendResult :=
  if bytes = [] then ⟨EspErr.invalidArg, [], txSeq, 0, 0⟩
  else if paused then ⟨EspErr.invalidState, [], txSeq, 0, 0⟩
  else
    let seq := (txSeq + 1) % 2 ^ 32
    let r := sendLoop selfMac dest opts seq
      (decide (bytes.length ≤ PROTOCOL_SIZE)) sendOk true 0 bytes
    ⟨r.1, r.2.1, seq, r.2.2.1, r.2.2.2⟩

/-- A frame whose TTL is exhausted (`hop_count = max_hops`). -/
def highHopFrame : Package := { recvFrame with hop_count := 10, max_hops := 10 }

/-- A frame carrying the pre-versioning version value 0. -/
def legacyFrame : Package := { recvFrame with version := 0 }

end FPR

namespace FPR

/-- Helper: a packet that `_should_forward_packet` accepts is below its
TTL. -/
theorem shouldForwardPacket_hop_lt {selfMac : Mac} {p : Package}
    (h : shouldForwardPacket selfMac p = true) :
    p.hop_count < p.max_hops := by
  unfold shouldForwardPacket at h
  split at h
  · exact absurd h (by simp)
  · split at h
    · exact absurd h (by simp)
    · omega

/-- Helper: inversion of one extender forwarding step.  When an unpaused
extender re-emits `g` for a received `f`, the version dispatcher accepted
`f.version`, `f` was below its TTL, and the re-emitted frame `g` carries
version 0 (because `fpr_send_data_full_control` never sets the version
field). -/
theorem emitted_mk (s : Stats) (o : Option Package) :
    (ExtenderOut.mk s o).emitted = o := rfl

theorem extStep_inv {f g : Package} (h : ExtStep f g) :
    (fpr_version_handle_version f.version).accepted = true ∧
    f.hop_count < f.max_hops ∧ g.version = 0 := by
  obtain ⟨ctx, stats, h⟩ := h
  by_cases hacc : (fpr_version_handle_version f.version).accepted = false
  · simp [handleExtenderReceive, hacc, emitted_mk] at h
  · by_cases hfwd : (ctx.routingEnabled && shouldForwardPacket ctx.selfMac f) = true
    · have hsf : shouldForwardPacket ctx.selfMac f = true :=
        ((Bool.and_eq_true _ _).mp hfwd).2
      refine ⟨by simpa using hacc, shouldForwardPacket_hop_lt hsf, ?_⟩
      cases hnh : extenderNextHop ctx f with
      | none =>
          simp [handleExtenderReceive, hacc, hfwd, hnh, emitted_mk] at h
      | some nh =>
          cases hs : ctx.sendOk with
          | false =>
              simp [handleExtenderReceive, hacc, hfwd, hnh, hs, emitted_mk] at h
          | true =>
              simp [handleExtenderReceive, hacc, hfwd, hnh, hs, emitted_mk] at h
              subst h
              rfl
    · simp [handleExtenderReceive, hacc, hfwd, emitted_mk] at h

/-- Helper: the version dispatcher never accepts version 0 (the
re-emitted frames of `fpr_send_data_full_control` all carry it). -/
theorem version0_not_accepted :
    (fpr_version_handle_version 0).accepted = false := by decide

end FPR

/-- C10: `fpr_network_stop_loop_task` never stops a running loop task: with
a task handle present it returns `ESP_ERR_INVALID_STATE` and keeps the
handle; it returns `ESP_OK` exactly when no task exists; and no sequence of
stop calls moves the state from a running task to a stopped one. -/
theorem C10_stop_loop_task_never_stops (s : Option Nat) (t : Nat) :
    (s = some t → FPR.fpr_network_stop_loop_task s = (FPR.EspErr.invalidState, some t)) ∧
    ((FPR.fpr_network_stop_loop_task s).1 = FPR.EspErr.ok ↔ s = none) ∧
    (∀ n, FPR.stopLoopIter n (some t) = some t) := by
  refine ⟨?_, ?_, ?_⟩
  · intro h; subst h; rfl
  · cases s with
    | none => simp [FPR.fpr_network_stop_loop_task]
    | some u => simp [FPR.fpr_network_stop_loop_task]
  · intro n
    induction n with
    | zero => rfl
    | succ k ih =>
      show FPR.stopLoopIter k (FPR.fpr_network_stop_loop_task (some t)).2 = some t
      simpa [FPR.fpr_network_stop_loop_task] using ih

/-- C1: the re-emitted frame of a qualifying forward in extender mode is
NOT the received frame with `hop_count` incremented: at a concrete
qualifying frame (`origin ≠ self`, `hop_count 3 < max_hops 10`, broadcast
destination), `_handle_extender_receive` re-emits through
`fpr_send_data_full_control`, which rebuilds the packet with
`origin_mac := self`, `hop_count := 0` and `version := 0`; only `max_hops`
survives.  This contradicts the claim (and the routing comments in
fpr_extender.c itself). -/
theorem C1_forwarded_frame_rebuilt :
    FPR.shouldForwardPacket FPR.macX FPR.recvFrame = true ∧
    (FPR.handleExtenderReceive FPR.ctxX {} false FPR.recvFrame).emitted = some FPR.fwdFrame ∧
    FPR.fwdFrame.origin_mac = FPR.macX ∧
    FPR.fwdFrame.origin_mac ≠ FPR.recvFrame.origin_mac ∧
    FPR.fwdFrame.hop_count = 0 ∧
    FPR.fwdFrame.hop_count ≠ FPR.recvFrame.hop_count + 1 ∧
    FPR.fwdFrame.version = 0 ∧
    FPR.fwdFrame.version ≠ FPR.recvFrame.version ∧
    FPR.fwdFrame.max_hops = FPR.recvFrame.max_hops := by
  refine ⟨by decide, by rfl, by decide, by decide, by decide, by decide,
    by decide, by decide, by decide⟩

/-- C2: TTL termination in extender mode.  A frame whose `hop_count` has
reached its `max_hops` is never re-emitted, and every chain of forwarding
steps starting from a frame `f` has length at most `f.max_hops` (in fact at
most one step is possible, because each re-emitted frame carries version 0
and is rejected by the next extender's version dispatcher), so forwarding
terminates and frames never loop indefinitely. -/
theorem C2_ttl_termination :
    (∀ f g : FPR.Package, f.hop_count ≥ f.max_hops → ¬ FPR.ExtStep f g) ∧
    (∀ (f : FPR.Package) (l : List FPR.Package),
       List.Chain FPR.ExtStep f l → l.length ≤ f.max_hops) := by
  constructor
  · intro f g hge hstep
    have := (FPR.extStep_inv hstep).2.1
    omega
  · intro f l hch
    cases l with
    | nil => simp
    | cons g gs =>
      obtain ⟨hfg, hgs⟩ := List.chain_cons.mp hch
      obtain ⟨-, hlt, hver⟩ := FPR.extStep_inv hfg
      cases gs with
      | nil =>
        simp only [List.length_cons, List.length_nil]
        omega
      | cons h hs =>
        obtain ⟨hgh, -⟩ := List.chain_cons.mp hgs
        obtain ⟨hacc, -, -⟩ := FPR.extStep_inv hgh
        rw [hver] at hacc
        exact absurd hacc (by simp [FPR.version0_not_accepted])

/-- Witness for C2: the concrete chain `recvFrame → fwdFrame` is a real
forwarding step and its length is within `recvFrame.max_hops`; the concrete
TTL-exhausted frame admits no step. -/
theorem C2_ttl_termination_witness :
    (¬ FPR.ExtStep FPR.highHopFrame FPR.fwdFrame) ∧
    ([FPR.fwdFrame] : List FPR.Package).length ≤ FPR.recvFrame.max_hops :=
  ⟨C2_ttl_termination.1 FPR.highHopFrame FPR.fwdFrame (by decide),
   C2_ttl_termination.2 FPR.recvFrame [FPR.fwdFrame]
     (List.Chain.cons ⟨FPR.ctxX, {}, by rfl⟩ List.Chain.nil)⟩

/-- C8 counterexample: a frame with version 0 is NOT routed to the legacy
handler — the dispatcher's compatibility gate rejects it first, so the
legacy handler is never invoked. -/
theorem C8_counterexample_version0_skips_legacy :
    (FPR.fpr_version_handle_version 0).accepted = false ∧
    (FPR.fpr_version_handle_version 0).legacyInvoked = false := by decide

/-- C8 (amended): every received frame whose version is 0 or whose major
version is older than the current protocol's major version is rejected by
the version dispatcher without the legacy handler ever being invoked
(versions below 1.0.0 already fail the compatibility gate); in the extender
receive path such a frame is dropped and counted in `packets_dropped`. -/
theorem C8_old_versions_rejected_before_legacy
    (v : Nat) (ctx : FPR.ExtenderCtx) (stats : FPR.Stats) (pkg : FPR.Package)
    (hmaj : FPR.versionMajor v = 0) (hpkg : pkg.version = v) :
    FPR.fpr_version_handle_version v = ⟨false, false, false⟩ ∧
    (FPR.handleExtenderReceive ctx stats false pkg).emitted = none ∧
    (FPR.handleExtenderReceive ctx stats false pkg).stats.packets_dropped =
      stats.packets_dropped + 1 := by
  have hdisp : FPR.fpr_version_handle_version v = ⟨false, false, false⟩ := by
    by_cases hv : v < 65536
    · have hc : FPR.fpr_version_is_compatible v = false := by
        simp [FPR.fpr_version_is_compatible, FPR.FPR_MIN_SUPPORTED_VERSION]
        omega
      simp [FPR.fpr_version_handle_version, hc]
    · have hge : 65536 ≤ v := by omega
      have hone : FPR.versionMajor FPR.FPR_PROTOCOL_VERSION = 1 := by decide
      have hc : FPR.fpr_version_is_compatible v = true := by
        simp [FPR.fpr_version_is_compatible, FPR.FPR_MIN_SUPPORTED_VERSION, hge]
      have hcur : FPR.fpr_version_is_current v = false := by
        unfold FPR.fpr_version_is_current
        rw [hmaj, hone]
        decide
      have hne0 : v ≠ 0 := by omega
      have hnlt : ¬ v < 65536 := by omega
      have hleg : FPR.fpr_version_needs_legacy_handler v = false := by
        unfold FPR.fpr_version_needs_legacy_handler
        simp [hne0, hnlt]
      have hnew : FPR.fpr_version_needs_newer_handler v = false := by
        unfold FPR.fpr_version_needs_newer_handler
        rw [hmaj, hone]
        decide
      simp [FPR.fpr_version_handle_version, hc, hcur, hleg, hnew]
  have hacc : (FPR.fpr_version_handle_version pkg.version).accepted = false := by
    rw [hpkg, hdisp]
  refine ⟨hdisp, ?_, ?_⟩ <;>
    simp [FPR.handleExtenderReceive, hacc]

/-- Witness for C8 at the concrete version 0 and a concrete frame carrying
it. -/
theorem C8_old_versions_rejected_before_legacy_witness :
    FPR.fpr_version_handle_version 0 = ⟨false, false, false⟩ ∧
    (FPR.handleExtenderReceive FPR.ctxX {} false FPR.legacyFrame).emitted = none ∧
    (FPR.handleExtenderReceive FPR.ctxX {} false FPR.legacyFrame).stats.packets_dropped =
      (({} : FPR.Stats)).packets_dropped + 1 :=
  C8_old_versions_rejected_before_legacy 0 FPR.ctxX {} FPR.legacyFrame (by decide) rfl

/-- Witness for C10 at the concrete state `loop_task = some 3`. -/
theorem C10_stop_loop_task_never_stops_witness :
    FPR.fpr_network_stop_loop_task (some 3) = (FPR.EspErr.invalidState, some 3) ∧
    FPR.stopLoopIter 5 (some 3) = some 3 :=
  ⟨(C10_stop_loop_task_never_stops (some 3) 3).1 rfl,
   (C10_stop_loop_task_never_stops (some 3) 3).2.2 5⟩

/-- C9: key verification returns true exactly on byte-for-byte equality, but
the comparison is the short-circuiting `memcmp`: at the concrete expected
key `keyZero`, the received key differing in byte 0 is rejected after
inspecting 1 byte position while the received key differing only in byte 15
is rejected only after inspecting all 16, so the running time of the compare
depends on the position of the first differing byte, contradicting the
constant-time requirement. -/
theorem C9_verify_key_short_circuits :
    FPR.fpr_security_verify_pwk (some FPR.keyZero) (some FPR.keyZero) = true ∧
    FPR.fpr_security_verify_pwk (some FPR.keyDiffFirst) (some FPR.keyZero) = false ∧
    FPR.fpr_security_verify_pwk (some FPR.keyDiffLast) (some FPR.keyZero) = false ∧
    FPR.fpr_security_verify_lwk (some FPR.keyDiffFirst) (some FPR.keyZero) = false ∧
    FPR.memcmpSteps FPR.keyDiffFirst FPR.keyZero = 1 ∧
    FPR.memcmpSteps FPR.keyDiffLast FPR.keyZero = 16 ∧
    FPR.memcmpSteps FPR.keyZero FPR.keyZero = 16 := by
  decide

namespace FPR

/-- Helper: `_store_data_with_mode` never changes `last_seq_num` (it only
touches fragment bookkeeping, the queue and the drop counter). -/
theorem storeDataWithMode_last_seq (s : PeerRec) (st : Stats) (d : Package) :
    (storeDataWithMode s st d).1.last_seq_num = s.last_seq_num := by
  unfold storeDataWithMode
  dsimp only
  repeat' split
  all_goals rfl

/-- Helper: the replay filter accepts a frame exactly when the peer is
connected and the frame does not carry a nonzero sequence number strictly
below the recorded `last_seq_num`. -/
theorem helper_accepted_iff (s : PeerRec) (st : Stats) (d : Package) :
    (storeDataFromPeerHelper s st d).accepted = true ↔
      (s.state = PeerState.connected ∧
        ¬(d.sequence_num ≠ 0 ∧ d.sequence_num < s.last_seq_num)) := by
  unfold storeDataFromPeerHelper
  split
  · rename_i hc
    split
    · rename_i hr
      simp [hc, hr]
    · rename_i hr
      dsimp only
      split_ifs <;> simp [hc, hr]
  · rename_i hc
    simp [hc]

/-- Helper: `last_seq_num` after `_store_data_from_peer_helper` — raised to
`max` with the frame's sequence number on acceptance, unchanged
otherwise. -/
theorem helper_last_seq (s : PeerRec) (st : Stats) (d : Package) :
    (storeDataFromPeerHelper s st d).store.last_seq_num =
      if s.state = PeerState.connected ∧
          ¬(d.sequence_num ≠ 0 ∧ d.sequence_num < s.last_seq_num)
        then max s.last_seq_num d.sequence_num else s.last_seq_num := by
  unfold storeDataFromPeerHelper
  split
  · rename_i hc
    split
    · rename_i hr
      simp [hc, hr]
    · rename_i hr
      have hcond : s.state = PeerState.connected ∧
          ¬(d.sequence_num ≠ 0 ∧ d.sequence_num < s.last_seq_num) := ⟨hc, hr⟩
      rw [if_pos hcond]
      dsimp only
      split_ifs
      all_goals simp_all [storeDataWithMode_last_seq]
      all_goals omega
  · rename_i hc
    rw [if_neg (fun hand => hc hand.1)]

/-- Helper: `last_seq_num` never decreases across one inbound frame. -/
theorem helper_last_seq_mono (s : PeerRec) (st : Stats) (d : Package) :
    s.last_seq_num ≤ (storeDataFromPeerHelper s st d).store.last_seq_num := by
  rw [helper_last_seq]
  split
  · exact Nat.le_max_left _ _
  · exact le_refl _

/-- Helper: the nonzero accepted sequence numbers of any trace are bounded
below by the starting `last_seq_num` and sorted. -/
theorem acceptedNonzeroSeqs_sorted_aux (ps : List Package) :
    ∀ (s : PeerRec) (st : Stats),
      (∀ x ∈ acceptedNonzeroSeqs s st ps, s.last_seq_num ≤ x) ∧
      List.Sorted (· ≤ ·) (acceptedNonzeroSeqs s st ps) := by
  induction ps with
  | nil => intro s st; simp [acceptedNonzeroSeqs]
  | cons p ps ih =>
    intro s st
    unfold acceptedNonzeroSeqs
    dsimp only
    split
    · rename_i hacc
      obtain ⟨IH1, IH2⟩ := ih (storeDataFromPeerHelper s st p).store
        (storeDataFromPeerHelper s st p).stats
      have hmono := helper_last_seq_mono s st p
      have hcond := (helper_accepted_iff s st p).mp hacc.1
      have hseq_ge : s.last_seq_num ≤ p.sequence_num := by
        rcases hcond with ⟨-, hnot⟩
        by_contra hlt
        exact hnot ⟨hacc.2, by omega⟩
      have hlast : (storeDataFromPeerHelper s st p).store.last_seq_num =
          max s.last_seq_num p.sequence_num := by
        rw [helper_last_seq, if_pos hcond]
      constructor
      · intro x hx
        rcases List.mem_cons.mp hx with rfl | hx'
        · exact hseq_ge
        · exact le_trans hmono (IH1 x hx')
      · refine List.sorted_cons.mpr ⟨?_, IH2⟩
        intro b hb
        have hbb := IH1 b hb
        omega
    · obtain ⟨IH1, IH2⟩ := ih (storeDataFromPeerHelper s st p).store
        (storeDataFromPeerHelper s st p).stats
      have hmono := helper_last_seq_mono s st p
      exact ⟨fun x hx => le_trans hmono (IH1 x hx), IH2⟩

end FPR

/-- C3 counterexample: the sequence numbers of accepted frames do NOT form
a non-decreasing sequence as stated: from a freshly connected peer, a
Single frame with sequence 5 is accepted (raising `last_seq_num` to 5) and
a following frame with sequence 0 is ALSO accepted (the filter exempts
`seq == 0`), so the accepted sequence is `[5, 0]`, which is decreasing. -/
theorem C3_counterexample_seq_zero_accepted :
    FPR.acceptedSeqs FPR.connStore {}
        [FPR.pkgSeq 5 .single, FPR.pkgSeq 0 .single] = [5, 0] ∧
    ¬ List.Sorted (· ≤ ·)
        (FPR.acceptedSeqs FPR.connStore {}
          [FPR.pkgSeq 5 .single, FPR.pkgSeq 0 .single]) := by
  constructor
  · decide
  · decide

/-- C3 (amended): for every inbound frame from a Connected peer, a frame
with nonzero sequence number strictly below the recorded `last_seq_num` is
dropped, `replay_attacks_blocked` is incremented, and the peer record is
unchanged; every other frame is accepted and `last_seq_num` becomes the
maximum of its previous value and the frame's sequence number.
Consequently `last_seq_num` is non-decreasing, and the NONZERO sequence
numbers of accepted frames form a non-decreasing sequence (frames with
sequence number 0 are always accepted, so the claim's unrestricted
monotonicity fails — see the counterexample). -/
theorem C3_replay_filter :
    (∀ (s : FPR.PeerRec) (st : FPR.Stats) (d : FPR.Package),
        s.state = FPR.PeerState.connected →
        d.sequence_num ≠ 0 → d.sequence_num < s.last_seq_num →
        FPR.storeDataFromPeerHelper s st d =
          ⟨s, { st with
                packets_received := st.packets_received + 1,
                replay_attacks_blocked := st.replay_attacks_blocked + 1 },
            false⟩) ∧
    (∀ (s : FPR.PeerRec) (st : FPR.Stats) (d : FPR.Package),
        s.state = FPR.PeerState.connected →
        ¬(d.sequence_num ≠ 0 ∧ d.sequence_num < s.last_seq_num) →
        (FPR.storeDataFromPeerHelper s st d).accepted = true ∧
        (FPR.storeDataFromPeerHelper s st d).store.last_seq_num =
          max s.last_seq_num d.sequence_num) ∧
    (∀ (s : FPR.PeerRec) (st : FPR.Stats) (d : FPR.Package),
        s.last_seq_num ≤ (FPR.storeDataFromPeerHelper s st d).store.last_seq_num) ∧
    (∀ (s : FPR.PeerRec) (st : FPR.Stats) (ps : List FPR.Package),
        List.Sorted (· ≤ ·) (FPR.acceptedNonzeroSeqs s st ps)) := by
  refine ⟨?_, ?_, FPR.helper_last_seq_mono, ?_⟩
  · intro s st d hc hne hlt
    unfold FPR.storeDataFromPeerHelper
    rw [if_pos hc, if_pos ⟨hne, hlt⟩]
  · intro s st d hc hr
    refine ⟨(FPR.helper_accepted_iff s st d).mpr ⟨hc, hr⟩, ?_⟩
    rw [FPR.helper_last_seq, if_pos ⟨hc, hr⟩]
  · intro s st ps
    exact (FPR.acceptedNonzeroSeqs_sorted_aux ps s st).2

/-- Witness for C3 at concrete inputs: a replayed frame (sequence 3 against
recorded 5) is dropped with only the replay counter bumped, and a concrete
accepted trace has sorted nonzero sequence numbers. -/
theorem C3_replay_filter_witness :
    FPR.storeDataFromPeerHelper FPR.replayStore {} (FPR.pkgSeq 3 .single) =
      ⟨FPR.replayStore,
        { packets_received := 1, replay_attacks_blocked := 1 }, false⟩ ∧
    List.Sorted (· ≤ ·)
      (FPR.acceptedNonzeroSeqs FPR.connStore {}
        [FPR.pkgSeq 5 .single, FPR.pkgSeq 0 .single]) :=
  ⟨C3_replay_filter.1 FPR.replayStore {} (FPR.pkgSeq 3 .single)
      rfl (by decide) (by decide),
   C3_replay_filter.2.2.2 FPR.connStore {}
      [FPR.pkgSeq 5 .single, FPR.pkgSeq 0 .single]⟩

/-- C4: a frame the fragment/queue-mode policy refuses is nevertheless
enqueued: `_store_data_with_mode` returns `void`, so after it counts the
frame in `packets_dropped` the caller `_store_data_from_peer_helper` still
executes its unconditional `xQueueSend`.  Concretely: an orphan Continued
frame under Normal mode (no fragment reception in progress) is counted as
dropped AND appended to the delivery queue, and a Start frame under
LatestOnly mode is counted as dropped AND appended to the delivery queue —
contradicting the claim (and the "drop it" comments in helpers.c). -/
theorem C4_refused_frames_still_enqueued :
    (FPR.storeDataFromPeerHelper FPR.connStore {}
        (FPR.pkgSeq 7 .continued)).stats.packets_dropped = 1 ∧
    (FPR.storeDataFromPeerHelper FPR.connStore {}
        (FPR.pkgSeq 7 .continued)).store.queue = [FPR.pkgSeq 7 .continued] ∧
    (FPR.storeDataFromPeerHelper FPR.latestStore {}
        (FPR.pkgSeq 9 .start)).stats.packets_dropped = 1 ∧
    (FPR.storeDataFromPeerHelper FPR.latestStore {}
        (FPR.pkgSeq 9 .start)).store.queue = [FPR.pkgSeq 9 .start] := by
  decide

/-- C7: whenever `fpr_sec_host_verify_and_ack` (host side, after the
client's step-3 frame) or `fpr_sec_client_verify_ack` (client side, after
the host's step-4 acknowledgment) moves a peer's security state to
Established, the returned peer record has `last_seq_num = 0`, the
`receiving_fragmented` flag cleared, an empty delivery queue, and
`queued_packets = 0`. -/
theorem C7_established_resets_session :
    (∀ (peer : FPR.HSPeer) (info : FPR.ConnectInfo) (host_pwk : List Nat) (sendOk : Bool),
        peer.sec_state ≠ FPR.SecState.established →
        (FPR.fpr_sec_host_verify_and_ack peer info host_pwk sendOk).2.sec_state =
          FPR.SecState.established →
        (FPR.fpr_sec_host_verify_and_ack peer info host_pwk sendOk).2.last_seq_num = 0 ∧
        (FPR.fpr_sec_host_verify_and_ack peer info host_pwk sendOk).2.receiving_fragmented = false ∧
        (FPR.fpr_sec_host_verify_and_ack peer info host_pwk sendOk).2.queue = [] ∧
        (FPR.fpr_sec_host_verify_and_ack peer info host_pwk sendOk).2.queued_packets = 0) ∧
    (∀ (peer : FPR.HSPeer) (info : FPR.ConnectInfo),
        peer.sec_state ≠ FPR.SecState.established →
        (FPR.fpr_sec_client_verify_ack peer info).2.sec_state = FPR.SecState.established →
        (FPR.fpr_sec_client_verify_ack peer info).2.last_seq_num = 0 ∧
        (FPR.fpr_sec_client_verify_ack peer info).2.receiving_fragmented = false ∧
        (FPR.fpr_sec_client_verify_ack peer info).2.queue = [] ∧
        (FPR.fpr_sec_client_verify_ack peer info).2.queued_packets = 0) := by
  constructor
  · intro peer info host_pwk sendOk hne hest
    unfold FPR.fpr_sec_host_verify_and_ack at hest ⊢
    split_ifs at hest ⊢
    · exact absurd hest hne
    · exact ⟨rfl, rfl, rfl, rfl⟩
    · exact absurd hest hne
  · intro peer info hne hest
    unfold FPR.fpr_sec_client_verify_ack at hest ⊢
    split_ifs at hest ⊢
    · exact absurd hest hne
    · exact absurd hest hne
    · exact ⟨rfl, rfl, rfl, rfl⟩

/-- Witness for C7 on concrete mid-handshake peers with residual session
state (nonzero `last_seq_num`, fragment in progress, queued frames). -/
theorem C7_established_resets_session_witness :
    ((FPR.fpr_sec_host_verify_and_ack FPR.hostPeerPre FPR.step3Info FPR.k1 true).2.last_seq_num = 0 ∧
     (FPR.fpr_sec_host_verify_and_ack FPR.hostPeerPre FPR.step3Info FPR.k1 true).2.receiving_fragmented = false ∧
     (FPR.fpr_sec_host_verify_and_ack FPR.hostPeerPre FPR.step3Info FPR.k1 true).2.queue = [] ∧
     (FPR.fpr_sec_host_verify_and_ack FPR.hostPeerPre FPR.step3Info FPR.k1 true).2.queued_packets = 0) ∧
    ((FPR.fpr_sec_client_verify_ack FPR.clientPeerPre (FPR.infoAck FPR.k1 FPR.l1)).2.last_seq_num = 0 ∧
     (FPR.fpr_sec_client_verify_ack FPR.clientPeerPre (FPR.infoAck FPR.k1 FPR.l1)).2.receiving_fragmented = false ∧
     (FPR.fpr_sec_client_verify_ack FPR.clientPeerPre (FPR.infoAck FPR.k1 FPR.l1)).2.queue = [] ∧
     (FPR.fpr_sec_client_verify_ack FPR.clientPeerPre (FPR.infoAck FPR.k1 FPR.l1)).2.queued_packets = 0) :=
  ⟨C7_established_resets_session.1 FPR.hostPeerPre FPR.step3Info FPR.k1 true
      (by decide) (by decide),
   C7_established_resets_session.2 FPR.clientPeerPre (FPR.infoAck FPR.k1 FPR.l1)
      (by decide) (by decide)⟩

/-- C5: a client CAN reach a state with two peers simultaneously Connected:
starting from a client in Auto mode connected to no one, hosts A and B both
broadcast before either handshake completes (so the "already connected to a
different host" guard in `_add_and_ping_host_from_client` never fires), the
client runs both handshakes concurrently, and after both step-4
acknowledgments BOTH peers are in state Connected — refuting the at-most-one
invariant. -/
theorem C5_two_connected_hosts_reachable :
    FPR.fpr_client_is_connected FPR.clientAuto = false ∧
    FPR.countConnected (FPR.runClient FPR.clientAuto FPR.twoHostTrace) = 2 := by
  decide

namespace FPR

/-- Helper: every frame the send loop emits carries the shared sequence
number of the call and a `payload_size` equal to the bytes placed in its
payload. -/
theorem sendLoop_emitted_fields (selfMac : Mac) (dest : Option Mac)
    (opts : SendOptions) (seq : Nat) (single : Bool) (sendOk : Nat → Bool) :
    ∀ (n : Nat) (bytes : List Nat), bytes.length ≤ n → ∀ (first : Bool) (i : Nat),
      ∀ p ∈ (sendLoop selfMac dest opts seq single sendOk first i bytes).2.1,
        p.sequence_num = seq ∧ p.payload_size = p.protocol.length := by
  intro n
  induction n with
  | zero =>
    intro bytes hb first i p hp
    have hempty : bytes = [] := List.eq_nil_of_length_eq_zero (Nat.le_zero.mp hb)
    rw [sendLoop, dif_pos hempty] at hp
    simp at hp
  | succ m ih =>
    intro bytes hb first i p hp
    by_cases hempty : bytes = []
    · rw [sendLoop, dif_pos hempty] at hp
      simp at hp
    · rw [sendLoop, dif_neg hempty] at hp
      dsimp only at hp
      by_cases hs : sendOk i = true
      · rw [if_pos hs] at hp
        rcases List.mem_cons.mp hp with rfl | hp'
        · exact ⟨rfl, rfl⟩
        · have hlen : (bytes.drop PROTOCOL_SIZE).length ≤ m := by
            have hpos := List.length_pos.mpr hempty
            simp only [List.length_drop, PROTOCOL_SIZE]
            omega
          exact ih _ hlen false (i + 1) p hp'
      · rw [if_neg hs] at hp
        simp at hp

/-- Helper: when every send succeeds, the loop returns `ESP_OK`, the
emitted payloads concatenate to the input bytes in order, and the emitted
package types follow `fragTypes`. -/
theorem sendLoop_all_ok (selfMac : Mac) (dest : Option Mac)
    (opts : SendOptions) (seq : Nat) (single : Bool) (sendOk : Nat → Bool)
    (hok : ∀ k, sendOk k = true) :
    ∀ (n : Nat) (bytes : List Nat), bytes.length ≤ n → ∀ (first : Bool) (i : Nat),
      (sendLoop selfMac dest opts seq single sendOk first i bytes).1 = EspErr.ok ∧
      ((sendLoop selfMac dest opts seq single sendOk first i bytes).2.1.map
        Package.protocol).flatten = bytes ∧
      (sendLoop selfMac dest opts seq single sendOk first i bytes).2.1.map
        Package.package_type = fragTypes single first bytes := by
  intro n
  induction n with
  | zero =>
    intro bytes hb first i
    have hempty : bytes = [] := List.eq_nil_of_length_eq_zero (Nat.le_zero.mp hb)
    subst hempty
    rw [sendLoop, dif_pos rfl, fragTypes, dif_pos rfl]
    simp
  | succ m ih =>
    intro bytes hb first i
    by_cases hempty : bytes = []
    · subst hempty
      rw [sendLoop, dif_pos rfl, fragTypes, dif_pos rfl]
      simp
    · rw [sendLoop, dif_neg hempty]
      dsimp only
      rw [if_pos (hok i)]
      have hlen : (bytes.drop PROTOCOL_SIZE).length ≤ m := by
        have hpos := List.length_pos.mpr hempty
        simp only [List.length_drop, PROTOCOL_SIZE]
        omega
      obtain ⟨ih1, ih2, ih3⟩ := ih (bytes.drop PROTOCOL_SIZE) hlen false (i + 1)
      refine ⟨ih1, ?_, ?_⟩
      · simp only [List.map_cons, List.flatten_cons]
        rw [ih2]
        exact List.take_append_drop PROTOCOL_SIZE bytes
      · rw [fragTypes, dif_neg hempty]
        simp only [List.map_cons]
        rw [ih3]
        rfl

/-- Helper: for a payload that fits in one fragment the type list is
`[Single]` (the `single` flag is set). -/
theorem fragTypes_single_case (bytes : List Nat) (first : Bool)
    (h1 : bytes ≠ []) (h2 : bytes.length ≤ PROTOCOL_SIZE) :
    fragTypes true first bytes = [PackageType.single] := by
  rw [fragTypes, dif_neg h1]
  have hrest : bytes.drop PROTOCOL_SIZE = [] := by
    apply List.eq_nil_of_length_eq_zero
    simp only [List.length_drop]
    omega
  rw [hrest, fragTypes, dif_pos rfl]
  simp

/-- Helper: after the Start fragment, a multi-fragment burst is zero or
more Continued fragments followed by exactly one End. -/
theorem fragTypes_rest (n : Nat) :
    ∀ (bytes : List Nat), bytes.length ≤ n → bytes ≠ [] →
      ∃ mids, fragTypes false false bytes = mids ++ [PackageType.pkgEnd] ∧
        ∀ t ∈ mids, t = PackageType.continued := by
  induction n with
  | zero =>
    intro bytes hb hne
    exact absurd (List.eq_nil_of_length_eq_zero (Nat.le_zero.mp hb)) hne
  | succ m ih =>
    intro bytes hb hne
    rw [fragTypes, dif_neg hne]
    by_cases hlast : bytes.length ≤ PROTOCOL_SIZE
    · have hrest : bytes.drop PROTOCOL_SIZE = [] := by
        apply List.eq_nil_of_length_eq_zero
        simp only [List.length_drop]
        omega
      rw [hrest, fragTypes, dif_pos rfl]
      refine ⟨[], ?_, by simp⟩
      simp [hlast]
    · have hpos := List.length_pos.mpr hne
      have hne' : bytes.drop PROTOCOL_SIZE ≠ [] := by
        intro hcon
        have := congrArg List.length hcon
        simp only [List.length_drop, List.length_nil, PROTOCOL_SIZE] at this hlast
        omega
      have hlen : (bytes.drop PROTOCOL_SIZE).length ≤ m := by
        simp only [List.length_drop, PROTOCOL_SIZE]
        omega
      obtain ⟨mids, hmids, hall⟩ := ih (bytes.drop PROTOCOL_SIZE) hlen hne'
      refine ⟨PackageType.continued :: mids, ?_, ?_⟩
      · rw [hmids]
        simp [hlast]
      · intro t ht
        rcases List.mem_cons.mp ht with rfl | ht'
        · rfl
        · exact hall t ht'

/-- Helper: the multi-fragment type list is `Start, Continued*, End`. -/
theorem fragTypes_multi_case (bytes : List Nat)
    (h : PROTOCOL_SIZE < bytes.length) :
    ∃ mids, fragTypes false true bytes =
        PackageType.start :: (mids ++ [PackageType.pkgEnd]) ∧
      ∀ t ∈ mids, t = PackageType.continued := by
  have hne : bytes ≠ [] := by
    intro hcon
    subst hcon
    simp [PROTOCOL_SIZE] at h
  have hne' : bytes.drop PROTOCOL_SIZE ≠ [] := by
    intro hcon
    have := congrArg List.length hcon
    simp only [List.length_drop, List.length_nil] at this
    omega
  obtain ⟨mids, hmids, hall⟩ :=
    fragTypes_rest (bytes.drop PROTOCOL_SIZE).length (bytes.drop PROTOCOL_SIZE)
      (le_refl _) hne'
  refine ⟨mids, ?_, hall⟩
  rw [fragTypes, dif_neg hne]
  simp only [if_false, Bool.false_eq_true]
  rw [hmids]
  have : ¬ bytes.length ≤ PROTOCOL_SIZE := by omega
  simp [this]

/-- Helper: on the first failing send (attempt `j`, all earlier attempts
succeeding, `j` within the number of fragments of this call) the loop
returns a failure, has emitted exactly the first `j` fragments, and counts
exactly one send failure. -/
theorem sendLoop_first_failure (selfMac : Mac) (dest : Option Mac)
    (opts : SendOptions) (seq : Nat) (single : Bool) (sendOk : Nat → Bool) :
    ∀ (n : Nat) (bytes : List Nat), bytes.length ≤ n → ∀ (first : Bool) (i j : Nat),
      (∀ k, k < j → sendOk (i + k) = true) → sendOk (i + j) = false →
      j < numChunks bytes →
      (sendLoop selfMac dest opts seq single sendOk first i bytes).1 = EspErr.sendFail ∧
      (sendLoop selfMac dest opts seq single sendOk first i bytes).2.1.length = j ∧
      (sendLoop selfMac dest opts seq single sendOk first i bytes).2.2.2 = 1 := by
  intro n
  induction n with
  | zero =>
    intro bytes hb first i j hpre hfail hj
    have hempty : bytes = [] := List.eq_nil_of_length_eq_zero (Nat.le_zero.mp hb)
    subst hempty
    rw [numChunks, dif_pos rfl] at hj
    omega
  | succ m ih =>
    intro bytes hb first i j hpre hfail hj
    by_cases hempty : bytes = []
    · subst hempty
      rw [numChunks, dif_pos rfl] at hj
      omega
    · rw [sendLoop, dif_neg hempty]
      dsimp only
      cases j with
      | zero =>
        have h0 : sendOk i = false := by simpa using hfail
        rw [if_neg (by simp [h0])]
        exact ⟨rfl, rfl, rfl⟩
      | succ jm =>
        have h0 : sendOk i = true := by
          have := hpre 0 (Nat.succ_pos jm)
          simpa using this
        rw [if_pos h0]
        have hlen : (bytes.drop PROTOCOL_SIZE).length ≤ m := by
          have hpos := List.length_pos.mpr hempty
          simp only [List.length_drop, PROTOCOL_SIZE]
          omega
        have hpre' : ∀ k, k < jm → sendOk (i + 1 + k) = true := by
          intro k hk
          have : i + 1 + k = i + (k + 1) := by omega
          rw [this]
          exact hpre (k + 1) (by omega)
        have hfail' : sendOk (i + 1 + jm) = false := by
          have : i + 1 + jm = i + (jm + 1) := by omega
          rw [this]
          exact hfail
        have hj' : jm < numChunks (bytes.drop PROTOCOL_SIZE) := by
          rw [numChunks, dif_neg hempty] at hj
          omega
        obtain ⟨r1, r2, r3⟩ := ih (bytes.drop PROTOCOL_SIZE) hlen false (i + 1) jm
          hpre' hfail' hj'
        exact ⟨r1, by simpa using r2, r3⟩

end FPR

/-- C6: `fpr_send_with_options` (with valid input and the network not
paused) increments the device-wide outbound sequence counter exactly once
per call (32-bit); every emitted frame carries that sequence number and a
`payload_size` equal to the bytes placed in it; when every underlying send
succeeds, the call returns OK, the emitted payloads concatenate to the
input bytes in order, a payload of at most 180 bytes is emitted as exactly
one Single frame, and a longer payload as one Start, zero or more
Continued, and one End frame; on the first underlying send failure the call
counts exactly one send failure and emits no further fragments. -/
theorem C6_send_with_options (selfMac : FPR.Mac) (dest : Option FPR.Mac)
    (bytes : List Nat) (opts : FPR.SendOptions) (txSeq : Nat)
    (sendOk : Nat → Bool) (r : FPR.SendResult) (hne : bytes ≠ [])
    (hr : r = FPR.fpr_send_with_options selfMac dest bytes opts false txSeq sendOk) :
    (r.txSeq = (txSeq + 1) % 2 ^ 32) ∧
    (∀ p ∈ r.emitted, p.sequence_num = r.txSeq ∧
      p.payload_size = p.protocol.length) ∧
    ((∀ k, sendOk k = true) →
      r.err = FPR.EspErr.ok ∧
      (r.emitted.map FPR.Package.protocol).flatten = bytes ∧
      (bytes.length ≤ FPR.PROTOCOL_SIZE →
        r.emitted.map FPR.Package.package_type = [FPR.PackageType.single]) ∧
      (FPR.PROTOCOL_SIZE < bytes.length →
        ∃ mids, r.emitted.map FPR.Package.package_type =
            FPR.PackageType.start :: (mids ++ [FPR.PackageType.pkgEnd]) ∧
          ∀ t ∈ mids, t = FPR.PackageType.continued)) ∧
    (∀ j, (∀ k, k < j → sendOk k = true) → sendOk j = false →
      j < FPR.numChunks bytes →
      r.err = FPR.EspErr.sendFail ∧ r.emitted.length = j ∧ r.sendFailures = 1) := by
  have hwrap : r = ⟨(FPR.sendLoop selfMac dest opts ((txSeq + 1) % 2 ^ 32)
      (decide (bytes.length ≤ FPR.PROTOCOL_SIZE)) sendOk true 0 bytes).1,
    (FPR.sendLoop selfMac dest opts ((txSeq + 1) % 2 ^ 32)
      (decide (bytes.length ≤ FPR.PROTOCOL_SIZE)) sendOk true 0 bytes).2.1,
    (txSeq + 1) % 2 ^ 32,
    (FPR.sendLoop selfMac dest opts ((txSeq + 1) % 2 ^ 32)
      (decide (bytes.length ≤ FPR.PROTOCOL_SIZE)) sendOk true 0 bytes).2.2.1,
    (FPR.sendLoop selfMac dest opts ((txSeq + 1) % 2 ^ 32)
      (decide (bytes.length ≤ FPR.PROTOCOL_SIZE)) sendOk true 0 bytes).2.2.2⟩ := by
    rw [hr]
    unfold FPR.fpr_send_with_options
    rw [if_neg hne]
    rfl
  subst hwrap
  refine ⟨rfl, ?_, ?_, ?_⟩
  · intro p hp
    exact FPR.sendLoop_emitted_fields selfMac dest opts _ _ sendOk bytes.length
      bytes (le_refl _) true 0 p hp
  · intro hok
    obtain ⟨h1, h2, h3⟩ := FPR.sendLoop_all_ok selfMac dest opts
      ((txSeq + 1) % 2 ^ 32) (decide (bytes.length ≤ FPR.PROTOCOL_SIZE)) sendOk hok
      bytes.length bytes (le_refl _) true 0
    refine ⟨h1, h2, ?_, ?_⟩
    · intro hle
      rw [h3]
      have hdec : decide (bytes.length ≤ FPR.PROTOCOL_SIZE) = true := by
        simpa using hle
      rw [hdec]
      exact FPR.fragTypes_single_case bytes true hne hle
    · intro hgt
      rw [h3]
      have hdec : decide (bytes.length ≤ FPR.PROTOCOL_SIZE) = false := by
        simpa using Nat.not_le.mpr hgt
      rw [hdec]
      exact FPR.fragTypes_multi_case bytes hgt
  · intro j hpre hfail hj
    have := FPR.sendLoop_first_failure selfMac dest opts ((txSeq + 1) % 2 ^ 32)
      (decide (bytes.length ≤ FPR.PROTOCOL_SIZE)) sendOk bytes.length bytes
      (le_refl _) true 0 j (by simpa using hpre) (by simpa using hfail) hj
    exact this

/-- Witness for C6 at a concrete 3-byte payload with all sends succeeding:
the counter goes from 0 to 1 and the call returns OK. -/
theorem C6_send_with_options_witness :
    (FPR.fpr_send_with_options FPR.macX (some FPR.macB) [1, 2, 3] ⟨0, 10⟩
      false 0 (fun _ => true)).txSeq = 1 ∧
    (FPR.fpr_send_with_options FPR.macX (some FPR.macB) [1, 2, 3] ⟨0, 10⟩
      false 0 (fun _ => true)).err = FPR.EspErr.ok :=
  have h := C6_send_with_options FPR.macX (some FPR.macB) [1, 2, 3] ⟨0, 10⟩ 0
    (fun _ => true) _ (by decide) rfl
  ⟨h.1, (h.2.2.1 (fun _ => rfl)).1⟩
